import Mathlib

/-!
Verification of the generic-call resolution and specialization engine
(`compiler/rustc_middle/src/ty/instance.rs`) against its design
specification.

The development is a shallow embedding of that file.  Types, generic
arguments and the compiler context are modelled as follows:

* `Ty` is a first-order syntax of the types the engine inspects: opaque
  atoms, generic type parameters, escaping bound variables, tuples, ADTs,
  closures and coroutines.  Generic argument lists are `List Ty`, with the
  constructors `constVal`, `constParam` and `lifetime` standing for the
  const-argument and (already erased) region-argument cases of the source's
  `GenericArg` union; `expectTy` plays the role of `GenericArg::expect_ty`
  (whose panic on a non-type argument is modelled by a junk default).
* `Tcx` is the read-only Definition Store / query context: every query the
  source file consults (`type_of`, `generics_of`, attribute flags, lang
  items, the resolver query, the upstream-monomorphization registries, the
  session options) is an oracle field.
* Rust functions that can panic on a contract violation (`assert!`,
  `assert_matches!`, `bug!`, `unwrap`) return `Except Unit _` here, with
  `.error ()` standing for the internal-fault (panic) path.  `debug_assert!`
  compiles to nothing in release builds and is not modelled.
* Projections into the closure/coroutine argument layout
  (`as_closure().kind()`, `as_closure().sig()`, `as_coroutine().kind_ty()`,
  tupled upvars) live outside this file in the real repository; they are
  modelled from the spec as positional projections on the argument list
  (the tupled-captures entry is the last argument, see section 4.3 of the
  spec).
-/

/-- Opaque definition identifier (`DefId`). -/
abbrev DefId := Nat

/-- Crate identifier (`CrateNum`). -/
abbrev CrateNum := Nat

/-- Parameter environment, threaded opaquely through resolution. -/
abbrev ParamEnv := Nat

/-- `ty::ClosureKind`: the three call ABIs of a closure. -/
inductive ClosureKind where
  | Fn
  | FnMut
  | FnOnce
  deriving DecidableEq, Repr

/-- The coroutine kinds the dispatch rule distinguishes
(`hir::CoroutineKind`): one per desugaring, plus general coroutines. -/
inductive CoroutineKind where
  | desugaredAsync
  | desugaredGen
  | desugaredAsyncGen
  | coroutine
  deriving DecidableEq, Repr

/-- `ty::GenericParamDefKind`, reduced to the three parameter kinds the
engine dispatches on. -/
inductive GenericParamKind where
  | lifetime
  | type
  | const
  deriving DecidableEq, Repr

/-- The type syntax the engine inspects, merged with the non-type generic
argument cases (`constVal`, `constParam`, `lifetime`) so that one inductive
serves for both `Ty` and `GenericArg`. -/
inductive Ty where
  | base (n : Nat)
  | param (index : Nat)
  | bound (index : Nat)
  | tuple (ts : List Ty)
  | adt (d : DefId) (args : List Ty)
  | closure (d : DefId) (args : List Ty)
  | coroutine (d : DefId) (args : List Ty)
  | constVal (n : Nat)
  | constParam (index : Nat)
  | lifetime
  deriving Repr

mutual

/-- Structural equality on `Ty`, the model of `==` on types and generic
arguments (structural equality per the data model). -/
def Ty.beq : Ty → Ty → Bool
  | .base a, .base b => a == b
  | .param a, .param b => a == b
  | .bound a, .bound b => a == b
  | .tuple ts, .tuple us => Ty.beqList ts us
  | .adt d a, .adt e b => d == e && Ty.beqList a b
  | .closure d a, .closure e b => d == e && Ty.beqList a b
  | .coroutine d a, .coroutine e b => d == e && Ty.beqList a b
  | .constVal a, .constVal b => a == b
  | .constParam a, .constParam b => a == b
  | .lifetime, .lifetime => true
  | _, _ => false
termination_by t _ => sizeOf t

/-- Structural equality on argument lists. -/
def Ty.beqList : List Ty → List Ty → Bool
  | [], [] => true
  | t :: ts, u :: us => Ty.beq t u && Ty.beqList ts us
  | _, _ => false
termination_by ts _ => sizeOf ts

end

/-- `GenericArg::expect_ty`: the type an argument carries.  The source
panics on a const or region argument; the model returns a junk default. -/
def expectTy : Ty → Ty
  | .constVal _ => .tuple []
  | .constParam _ => .tuple []
  | .lifetime => .tuple []
  | t => t

/-- `Ty::tuple_fields`.  The source's `bug!` on a non-tuple type is
modelled by the empty list. -/
def tupleFields : Ty → List Ty
  | .tuple ts => ts
  | _ => []

/-- Modelled from the spec: the tupled-captures component of a closure's or
coroutine's argument list (`as_closure().tupled_upvars_ty()` /
`as_coroutine().tupled_upvars_ty()`) is the last generic argument. -/
def tupledUpvarsTy (args : List Ty) : Ty :=
  expectTy (args.getLastD (.tuple []))

/-- Modelled from the spec: the decoding of a closure-kind encoding type,
`Ty::to_opt_closure_kind` collapsed to a total function. -/
def tyToClosureKind : Ty → ClosureKind
  | .base 0 => .Fn
  | .base 1 => .FnMut
  | _ => .FnOnce

/-- Modelled from the spec: `args.as_closure().kind()` — the closure-kind
component sits in the third argument from the end of the closure's argument
list. -/
def closureArgsKind (args : List Ty) : ClosureKind :=
  tyToClosureKind (args.getD (args.length - 3) (.tuple []))

/-- Modelled from the spec: `args.as_coroutine().kind_ty()` — the
capture-kind component sits in the sixth argument from the end of the
coroutine's argument list. -/
def coroutineKindTy (args : List Ty) : Ty :=
  args.getD (args.length - 6) (.tuple [])

/-- `GenericArgs::type_at(i)`: the type carried by argument `i`. -/
def typeAt (args : List Ty) (i : Nat) : Ty :=
  expectTy (args.getD i (.tuple []))

/-- Whether an argument is a region (lifetime) argument. -/
def isLifetimeArg : Ty → Bool
  | .lifetime => true
  | _ => false

/-- Modelled from the spec: `GenericArgs::non_erasable_generics` — the
arguments that survive erasure, i.e. everything except lifetimes. -/
def nonErasableGenerics (args : List Ty) : List Ty :=
  args.filter (fun a => !isLifetimeArg a)

/-- `Ty::ty_adt_def`: the ADT a type is headed by, if any. -/
def tyAdtDef : Ty → Option DefId
  | .adt d _ => some d
  | _ => none

/-- `tcx.mk_param_from_def`: the canonical placeholder argument for a
generic parameter, by kind and index. -/
def mkParamFromKind : GenericParamKind → Nat → Ty
  | .type, i => .param i
  | .const, i => .constParam i
  | .lifetime, _ => .lifetime

/-- `TypeVisitableExt::has_escaping_bound_vars` on one type: the model's
types have no binders, so any bound variable is escaping. -/
def Ty.hasEscapingBoundVars : Ty → Bool
  | .bound _ => true
  | .tuple ts => ts.attach.any fun x => Ty.hasEscapingBoundVars x.1
  | .adt _ as => as.attach.any fun x => Ty.hasEscapingBoundVars x.1
  | .closure _ as => as.attach.any fun x => Ty.hasEscapingBoundVars x.1
  | .coroutine _ as => as.attach.any fun x => Ty.hasEscapingBoundVars x.1
  | _ => false
termination_by t => sizeOf t
decreasing_by
  all_goals
    have := List.sizeOf_lt_of_mem x.2
    simp_wf
    omega

/-- `has_escaping_bound_vars` on an argument list. -/
def hasEscapingBoundVars (args : List Ty) : Bool :=
  args.any Ty.hasEscapingBoundVars

/-- The source's `UnusedGenericParams`: a `FiniteBitSet<u32>` where a set
bit marks an unused generic parameter. -/
structure UnusedGenericParams where
  bits : Nat
  deriving DecidableEq, Repr

/-- `FiniteBitSet::<u32>::contains(idx).unwrap_or(false)`: bit test within
the 32-bit domain, `false` outside it. -/
def UnusedGenericParams.is_unused (u : UnusedGenericParams) (idx : Nat) : Bool :=
  decide (idx < 32) && u.bits.testBit idx

/-- `UnusedGenericParams::is_used`. -/
def UnusedGenericParams.is_used (u : UnusedGenericParams) (idx : Nat) : Bool :=
  !u.is_unused idx

/-- `UnusedGenericParams::new_all_used`: the empty bitset. -/
def UnusedGenericParams.new_all_used : UnusedGenericParams := ⟨0⟩

/-- `UnusedGenericParams::from_bits`. -/
def UnusedGenericParams.from_bits (bits : Nat) : UnusedGenericParams := ⟨bits⟩

/-- `InstanceDef<'tcx>`: the closed set of instance kinds, with the
payloads of the source (`def` renamed `defn` where it would clash with the
Lean keyword). -/
inductive InstanceDef where
  | Item (def_id : DefId)
  | Intrinsic (def_id : DefId)
  | VTableShim (def_id : DefId)
  | ReifyShim (def_id : DefId)
  | FnPtrShim (def_id : DefId) (ty : Ty)
  | Virtual (def_id : DefId) (slot : Nat)
  | ClosureOnceShim (call_once : DefId) (track_caller : Bool)
  | ConstructCoroutineInClosureShim (coroutine_closure_def_id : DefId)
      (target_kind : ClosureKind)
  | CoroutineByMoveShim (coroutine_def_id : DefId)
  | ThreadLocalShim (def_id : DefId)
  | DropGlue (def_id : DefId) (ty : Option Ty)
  | CloneShim (def_id : DefId) (ty : Ty)
  | FnPtrAddrShim (def_id : DefId) (ty : Ty)
  deriving Repr

/-- `Instance<'tcx>`: an instance kind paired with its argument list.  The
source field `def` is `defn` here (Lean keyword). -/
structure Instance where
  defn : InstanceDef
  args : List Ty
  deriving Repr

/-- `InstanceDef::def_id`. -/
def InstanceDef.def_id : InstanceDef → DefId
  | .Item def_id => def_id
  | .VTableShim def_id => def_id
  | .ReifyShim def_id => def_id
  | .FnPtrShim def_id _ => def_id
  | .Virtual def_id _ => def_id
  | .Intrinsic def_id => def_id
  | .ThreadLocalShim def_id => def_id
  | .ClosureOnceShim def_id _ => def_id
  | .ConstructCoroutineInClosureShim def_id _ => def_id
  | .CoroutineByMoveShim def_id => def_id
  | .DropGlue def_id _ => def_id
  | .CloneShim def_id _ => def_id
  | .FnPtrAddrShim def_id _ => def_id

/-- The read-only query context (`TyCtxt` plus session options): every
query `instance.rs` performs is an oracle field, consumed as-is. -/
structure Tcx where
  /-- `tcx.type_of(d).skip_binder()`. -/
  typeOf : DefId → Ty
  /-- `tcx.generics_of(d)` flattened: all generic parameters including the
  parent's, in declaration order (a parameter's index is its position). -/
  params : DefId → List GenericParamKind
  /-- `tcx.unused_generic_params(instance)`, the external liveness
  analysis. -/
  unusedGenericParams : InstanceDef → UnusedGenericParams
  /-- `tcx.sess.opts.unstable_opts.polymorphize`. -/
  polymorphizeEnabled : Bool
  /-- The `resolve_instance` query (inputs already region-erased). -/
  resolveInstance : ParamEnv → DefId → List Ty → Except Unit (Option Instance)
  /-- `tcx.is_closure_or_coroutine(d)`. -/
  isClosureOrCoroutine : DefId → Bool
  /-- `tcx.body_codegen_attrs(d).flags.contains(TRACK_CALLER)`. -/
  bodyCodegenAttrsTrackCaller : DefId → Bool
  /-- `tcx.codegen_fn_attrs(d).flags.contains(TRACK_CALLER)`. -/
  codegenFnAttrsTrackCaller : DefId → Bool
  /-- `tcx.fn_sig(d).instantiate_identity()`, inputs with the binder
  skipped. -/
  fnSigInputs : DefId → List Ty
  /-- `tcx.generics_of(d).has_self`. -/
  genericsHasSelf : DefId → Bool
  /-- `tcx.should_inherit_track_caller(d)`. -/
  shouldInheritTrackCaller : DefId → Bool
  /-- Whether `tcx.opt_associated_item(d)` is an associated item of a trait
  container (the `matches!` test of `resolve_for_vtable`). -/
  assocItemIsInTraitContainer : DefId → Bool
  /-- The `FnOnce::call_once` method: `require_lang_item(FnOnce)` followed
  by the associated-item lookup, collapsed to one oracle. -/
  fnOnceCallOnceDefId : DefId
  /-- Modelled from the spec: `args.as_closure().sig()`'s tupled input type
  with bound regions erased (an external projection into the closure
  argument layout). -/
  closureSigTupledInputsTy : List Ty → Ty
  /-- `tcx.coroutine_kind(d)`. -/
  coroutineKindOf : DefId → Option CoroutineKind
  /-- `tcx.lang_items().future_trait()`. -/
  langFutureTrait : Option DefId
  /-- `tcx.lang_items().iterator_trait()`. -/
  langIteratorTrait : Option DefId
  /-- `tcx.lang_items().async_iterator_trait()`. -/
  langAsyncIteratorTrait : Option DefId
  /-- `tcx.lang_items().coroutine_trait()`. -/
  langCoroutineTrait : Option DefId
  /-- `tcx.lang_items().get(FuturePoll)`. -/
  langFuturePoll : Option DefId
  /-- `tcx.lang_items().get(IteratorNext)`. -/
  langIteratorNext : Option DefId
  /-- `tcx.lang_items().get(AsyncIteratorPollNext)`. -/
  langAsyncIteratorPollNext : Option DefId
  /-- `tcx.lang_items().get(CoroutineResume)`. -/
  langCoroutineResume : Option DefId
  /-- `tcx.sess.opts.share_generics()`. -/
  shareGenerics : Bool
  /-- `DefId::is_local`. -/
  isLocalDef : DefId → Bool
  /-- `tcx.upstream_monomorphizations_for(d)`: the (definition,
  arguments)-keyed registry, as a lookup function when present. -/
  upstreamMonomorphizationsFor : DefId → Option (List Ty → Option CrateNum)
  /-- `tcx.upstream_drop_glue_for(args)`: the type-keyed registry. -/
  upstreamDropGlueFor : List Ty → Option CrateNum
  /-- `tcx.sess.opts.incremental.is_some()`. -/
  incrementalIsSome : Bool
  /-- `adt_def.is_enum()`. -/
  adtIsEnum : DefId → Bool
  /-- `adt_def.destructor(tcx)`, the user `Drop` impl's `DefId`. -/
  adtDestructor : DefId → Option DefId
  /-- `tcx.cross_crate_inlinable(d)`. -/
  crossCrateInlinable : DefId → Bool
  /-- Whether `tcx.def_key(d).disambiguated_data.data` is
  `DefPathData::Ctor | DefPathData::Closure`. -/
  defKeyIsCtorOrClosure : DefId → Bool
  /-- The external type printer used by `fmt_instance` for `{ty}`. -/
  showTy : Ty → String

/-- `Instance::def_id`. -/
def Instance.def_id (i : Instance) : DefId :=
  i.defn.def_id

/-- `InstanceDef::requires_inline`: unconditionally `inline`-marked
instances. -/
def InstanceDef.requires_inline (idf : InstanceDef) (tcx : Tcx) : Bool :=
  match idf with
  | .Item d => tcx.defKeyIsCtorOrClosure d
  | .DropGlue _ (some _) => false
  | .ThreadLocalShim _ => false
  | _ => true

/-- `InstanceDef::generates_cgu_internal_copy`: the duplication policy
(`should_duplicate_per_unit` of the spec). -/
def InstanceDef.generates_cgu_internal_copy (idf : InstanceDef) (tcx : Tcx) : Bool :=
  if idf.requires_inline tcx then true
  else
    match idf with
    | .DropGlue _ (some ty) =>
      if !tcx.incrementalIsSome then true
      else
        match tyAdtDef ty with
        | none => true
        | some adt =>
          match tcx.adtDestructor adt with
          | none => tcx.adtIsEnum adt
          | some dtor => tcx.crossCrateInlinable dtor
    | .ThreadLocalShim _ => false
    | _ => tcx.crossCrateInlinable idf.def_id

/-- `InstanceDef::requires_caller_location`. -/
def InstanceDef.requires_caller_location (idf : InstanceDef) (tcx : Tcx) : Bool :=
  match idf with
  | .Item d => tcx.bodyCodegenAttrsTrackCaller d
  | .Virtual d _ => tcx.bodyCodegenAttrsTrackCaller d
  | .ClosureOnceShim _ track_caller => track_caller
  | _ => false

/-- The variant-dependent suffix `fmt_instance` appends after the printed
definition path (the path itself is printed by the external printer and is
identical for all variants over one definition). -/
def instanceSuffix (tcx : Tcx) (idf : InstanceDef) : String :=
  match idf with
  | .Item _ => ""
  | .VTableShim _ => " - shim(vtable)"
  | .ReifyShim _ => " - shim(reify)"
  | .ThreadLocalShim _ => " - shim(tls)"
  | .Intrinsic _ => " - intrinsic"
  | .Virtual _ num => " - virtual#" ++ toString num
  | .FnPtrShim _ ty => " - shim(" ++ tcx.showTy ty ++ ")"
  | .ClosureOnceShim _ _ => " - shim"
  | .ConstructCoroutineInClosureShim _ _ => " - shim"
  | .CoroutineByMoveShim _ => " - shim"
  | .DropGlue _ none => " - shim(None)"
  | .DropGlue _ (some ty) => " - shim(Some(" ++ tcx.showTy ty ++ "))"
  | .CloneShim _ ty => " - shim(" ++ tcx.showTy ty ++ ")"
  | .FnPtrAddrShim _ ty => " - shim(" ++ tcx.showTy ty ++ ")"

/-- `Instance::new`: construct an `Item` instance; the `assert!` that the
arguments have no escaping bound variables is the fault path. -/
def Instance.new (def_id : DefId) (args : List Ty) : Except Unit Instance :=
  if hasEscapingBoundVars args then .error ()
  else .ok { defn := .Item def_id, args }

/-- `Instance::upstream_monomorphization`: the sharing oracle
(`upstream_owner` of the spec). -/
def Instance.upstream_monomorphization (inst : Instance) (tcx : Tcx) : Option CrateNum :=
  if !tcx.shareGenerics then none
  else if tcx.isLocalDef inst.def_id then none
  else if (nonErasableGenerics inst.args).isEmpty then none
  else
    match inst.defn with
    | .Item d => (tcx.upstreamMonomorphizationsFor d).bind fun monos => monos inst.args
    | .DropGlue _ (some _) => tcx.upstreamDropGlueFor inst.args
    | _ => none

/-- `Instance::resolve`.  The model's region arguments are already erased,
so `erase_regions` is the identity here; the query oracle is consulted
directly. -/
def Instance.resolve (tcx : Tcx) (param_env : ParamEnv) (def_id : DefId)
    (args : List Ty) : Except Unit (Option Instance) :=
  tcx.resolveInstance param_env def_id args

/-- `Result::ok().flatten()` on the resolver's outcome. -/
def resolveOkFlatten (x : Except Unit (Option Instance)) : Option Instance :=
  match x with
  | .ok o => o
  | .error _ => none

/-- `Instance::resolve_for_fn_ptr`.  The leading `assert!` that the
definition is not a closure/coroutine is the fault path. -/
def Instance.resolve_for_fn_ptr (tcx : Tcx) (param_env : ParamEnv)
    (def_id : DefId) (args : List Ty) : Except Unit (Option Instance) :=
  if tcx.isClosureOrCoroutine def_id then .error ()
  else
    .ok <| (resolveOkFlatten (Instance.resolve tcx param_env def_id args)).map
      fun resolved =>
        match resolved.defn with
        | .Item d =>
          if resolved.defn.requires_caller_location tcx then
            { resolved with defn := .ReifyShim d }
          else resolved
        | .Virtual d _ => { resolved with defn := .ReifyShim d }
        | _ => resolved

/-- `Instance::resolve_for_vtable`. -/
def Instance.resolve_for_vtable (tcx : Tcx) (param_env : ParamEnv)
    (def_id : DefId) (args : List Ty) : Option Instance :=
  let inputs := tcx.fnSigInputs def_id
  let is_vtable_shim :=
    !inputs.isEmpty
      && (match inputs.getD 0 (.tuple []) with
          | .param 0 => true
          | _ => false)
      && tcx.genericsHasSelf def_id
  if is_vtable_shim then some { defn := .VTableShim def_id, args }
  else
    (resolveOkFlatten (Instance.resolve tcx param_env def_id args)).map
      fun resolved =>
        match resolved.defn with
        | .Item d =>
          if resolved.defn.requires_caller_location tcx
              && !tcx.shouldInheritTrackCaller d
              && !tcx.assocItemIsInTraitContainer d then
            if tcx.isClosureOrCoroutine d then
              { defn := .ReifyShim def_id, args }
            else
              { resolved with defn := .ReifyShim d }
          else resolved
        | .Virtual d _ => { resolved with defn := .ReifyShim d }
        | _ => resolved

/-- `needs_fn_once_adapter_shim`: the closure-kind compatibility table;
`Err` is the no-valid-adapter fault signal. -/
def needs_fn_once_adapter_shim (actual_closure_kind trait_closure_kind : ClosureKind) :
    Except Unit Bool :=
  match actual_closure_kind, trait_closure_kind with
  | .Fn, .Fn | .FnMut, .FnMut | .FnOnce, .FnOnce => .ok false
  | .Fn, .FnMut => .ok false
  | .Fn, .FnOnce | .FnMut, .FnOnce => .ok true
  | .FnMut, _ | .FnOnce, _ => .error ()

/-- `Instance::fn_once_adapter_instance`: the `ClosureOnceShim` over
`FnOnce::call_once` for a by-reference closure. -/
def Instance.fn_once_adapter_instance (tcx : Tcx) (closure_did : DefId)
    (args : List Ty) : Instance :=
  let call_once := tcx.fnOnceCallOnceDefId
  let track_caller := tcx.codegenFnAttrsTrackCaller closure_did
  let defn := InstanceDef.ClosureOnceShim call_once track_caller
  let self_ty := Ty.closure closure_did args
  let tupled_inputs_ty := tcx.closureSigTupledInputsTy args
  { defn, args := [self_ty, tupled_inputs_ty] }

/-- `Instance::resolve_closure`: the adapter decision for `call`-family
methods on a closure (`Err` from the table falls back to the plain item,
as in the source's `_ =>` arm). -/
def Instance.resolve_closure (tcx : Tcx) (def_id : DefId) (args : List Ty)
    (requested_kind : ClosureKind) : Except Unit Instance :=
  let actual_kind := closureArgsKind args
  match needs_fn_once_adapter_shim actual_kind requested_kind with
  | .ok true => .ok (Instance.fn_once_adapter_instance tcx def_id args)
  | _ => Instance.new def_id args

/-- The body shared by the four driving-trait branches of
`try_resolve_item_for_coroutine` after the trait has been recognised:
dispatch on whether the requested item is the driving method, and on the
capture-kind comparison. -/
def coroutineResolveBody (tcx : Tcx) (trait_item_id : DefId)
    (coroutine_def_id : DefId) (args rcvr_args : List Ty)
    (callable : Option DefId) : Except Unit (Option Instance) :=
  if callable = some trait_item_id then
    match tcx.typeOf coroutine_def_id with
    | .coroutine _ id_args =>
      if Ty.beq (coroutineKindTy args) (coroutineKindTy id_args) then
        .ok (some { defn := .Item coroutine_def_id, args })
      else
        .ok (some { defn := .CoroutineByMoveShim coroutine_def_id, args })
    | _ => .error ()
  else
    (Instance.new trait_item_id rcvr_args).map some

/-- `Instance::try_resolve_item_for_coroutine`: the coroutine dispatch
rule.  `.error ()` covers the source's `unwrap`, `assert_matches!` and
`bug!` fault paths. -/
def Instance.try_resolve_item_for_coroutine (tcx : Tcx) (trait_item_id trait_id : DefId)
    (rcvr_args : List Ty) : Except Unit (Option Instance) :=
  match typeAt rcvr_args 0 with
  | .coroutine coroutine_def_id args =>
    match tcx.coroutineKindOf coroutine_def_id with
    | none => .error ()
    | some coroutine_kind =>
      if tcx.langFutureTrait = some trait_id then
        if coroutine_kind = .desugaredAsync then
          coroutineResolveBody tcx trait_item_id coroutine_def_id args rcvr_args
            tcx.langFuturePoll
        else .error ()
      else if tcx.langIteratorTrait = some trait_id then
        if coroutine_kind = .desugaredGen then
          coroutineResolveBody tcx trait_item_id coroutine_def_id args rcvr_args
            tcx.langIteratorNext
        else .error ()
      else if tcx.langAsyncIteratorTrait = some trait_id then
        if coroutine_kind = .desugaredAsyncGen then
          coroutineResolveBody tcx trait_item_id coroutine_def_id args rcvr_args
            tcx.langAsyncIteratorPollNext
        else .error ()
      else if tcx.langCoroutineTrait = some trait_id then
        if coroutine_kind = .coroutine then
          coroutineResolveBody tcx trait_item_id coroutine_def_id args rcvr_args
            tcx.langCoroutineResume
        else .error ()
      else .ok none
  | _ => .ok none

/-- `upvars_ty` of the free function `polymorphize`: the tupled-captures
type when the definition's own type is a closure or coroutine. -/
def upvarsTyOpt (tcx : Tcx) (def_id : DefId) (args : List Ty) : Option Ty :=
  match tcx.typeOf def_id with
  | .closure _ _ => some (tupledUpvarsTy args)
  | .coroutine _ _ => some (tupledUpvarsTy args)
  | _ => none

/-- `has_upvars` of the free function `polymorphize`. -/
def hasUpvarsB (tcx : Tcx) (def_id : DefId) (args : List Ty) : Bool :=
  (upvarsTyOpt tcx def_id args).elim false fun t => !(tupleFields t).isEmpty

/-- `==` on `Option<Ty>`, via structural type equality. -/
def optTyBeq : Option Ty → Option Ty → Bool
  | some a, some b => Ty.beq a b
  | none, none => true
  | _, _ => false

mutual

/-- The free function `polymorphize`: rebuild the argument list with
`GenericArgs::for_item`, unbinding unused parameters and recursively
folding the tupled-captures argument (the source indexes `args` by the
parameter's position; out-of-range access, a panic in the source, is
modelled with a junk default). -/
def polymorphize (tcx : Tcx) (inst : InstanceDef) (args : List Ty) : List Ty :=
  let unused := tcx.unusedGenericParams inst
  let def_id := inst.def_id
  (tcx.params def_id).enum.map fun p =>
    match p.2 with
    | .type =>
      if h : (hasUpvarsB tcx def_id args
          && optTyBeq (upvarsTyOpt tcx def_id args)
              (some (expectTy (args.getD p.1 (.tuple []))))) = true then
        foldTy tcx (tupledUpvarsTy args)
      else if unused.is_unused p.1 then mkParamFromKind .type p.1
      else args.getD p.1 (.tuple [])
    | .const =>
      if unused.is_unused p.1 then mkParamFromKind .const p.1
      else args.getD p.1 (.tuple [])
    | .lifetime => args.getD p.1 (.tuple [])
termination_by sizeOf args
decreasing_by
  have h1 : hasUpvarsB tcx inst.def_id args = true := by
    have hc := h
    simp only [Bool.and_eq_true] at hc
    exact hc.1
  have h2 : (tupleFields (tupledUpvarsTy args)).isEmpty = false := by
    unfold hasUpvarsB upvarsTyOpt at h1
    cases htd : tcx.typeOf inst.def_id <;> rw [htd] at h1 <;> simp_all [Option.elim]
  cases hl : args.getLast? with
  | none =>
    exfalso
    have hnil : args = [] := List.getLast?_eq_none_iff.mp hl
    subst hnil
    simp [tupledUpvarsTy, List.getLastD, expectTy, tupleFields] at h2
  | some a =>
    have hmem : a ∈ args := by
      rw [List.getLast?_eq_getElem?] at hl
      exact List.getElem?_mem hl
    have hlt : sizeOf a < sizeOf args := List.sizeOf_lt_of_mem hmem
    have hgd : args.getLastD (.tuple []) = a := by
      rw [List.getLastD_eq_getLast?, hl]
      rfl
    rw [tupledUpvarsTy, hgd] at h2 ⊢
    cases a <;>
      first
      | (simp only [expectTy]; exact hlt)
      | (simp [expectTy, tupleFields] at h2)

/-- `PolymorphizationFolder::fold_ty` combined with the default
`super_fold_with` traversal: nested closures and coroutines are folded by
`polymorphize` over their own definition; every other type is traversed
structurally (const and region argument constructors are inert leaves). -/
def foldTy (tcx : Tcx) : Ty → Ty
  | .closure d a =>
    let pa := polymorphize tcx (.Item d) a
    if Ty.beqList a pa then .closure d a else .closure d pa
  | .coroutine d a =>
    let pa := polymorphize tcx (.Item d) a
    if Ty.beqList a pa then .coroutine d a else .coroutine d pa
  | .tuple ts => .tuple (ts.attach.map fun x => foldTy tcx x.1)
  | .adt d as => .adt d (as.attach.map fun x => foldTy tcx x.1)
  | t => t
termination_by t => sizeOf t
decreasing_by
  all_goals
    try have hx := List.sizeOf_lt_of_mem x.2
    simp_wf
    all_goals omega

end

/-- `Instance::polymorphize`: the feature-flagged wrapper (named apart
because the free function `polymorphize` would be shadowed inside a
declaration of the same name). -/
def instancePolymorphize (tcx : Tcx) (i : Instance) : Instance :=
  if !tcx.polymorphizeEnabled then i
  else { defn := i.defn, args := polymorphize tcx i.defn i.args }

/-- Whether a type is headed by a closure or coroutine constructor. -/
def closureOrCoroutineHeaded : Ty → Bool
  | .closure _ _ => true
  | .coroutine _ _ => true
  | _ => false

/-- Data-model well-formedness of one type (section 3 of the spec: an
argument list carries one argument per generic parameter of its
definition), applied recursively to the closures and coroutines nested in
a type. -/
def Ty.wf (tcx : Tcx) : Ty → Bool
  | .tuple ts => ts.attach.all fun x => Ty.wf tcx x.1
  | .adt _ as => as.attach.all fun x => Ty.wf tcx x.1
  | .closure d a =>
    (a.length == (tcx.params d).length) && a.attach.all fun x => Ty.wf tcx x.1
  | .coroutine d a =>
    (a.length == (tcx.params d).length) && a.attach.all fun x => Ty.wf tcx x.1
  | _ => true
termination_by t => sizeOf t
decreasing_by
  all_goals
    try have hx := List.sizeOf_lt_of_mem x.2
    simp_wf
    all_goals omega

/-- Data-model well-formedness of an argument list bound to a definition:
the length matches the definition's parameter count and every argument is
itself well-formed. -/
def wfArgs (tcx : Tcx) (def_id : DefId) (args : List Ty) : Bool :=
  (args.length == (tcx.params def_id).length) && args.all (Ty.wf tcx)

/-- Definition-store invariant: a definition whose type is a closure or a
coroutine has its synthetic type parameters at the end of its generics, so
its last generic parameter is a type parameter (the tupled-captures
parameter). -/
def Tcx.WellFormedGenerics (tcx : Tcx) : Prop :=
  ∀ d : DefId, closureOrCoroutineHeaded (tcx.typeOf d) = true →
    (tcx.params d).getLast? = some .type

/-- The spec's amended incremental-mode duplication condition for concrete
drop glue: the type has no ADT definition, or is an enum without a user
destructor, or its user destructor is cross-unit-inlinable. -/
def specIncrementalDropGlueDuplicates (tcx : Tcx) (ty : Ty) : Prop :=
  tyAdtDef ty = none
    ∨ (∃ adt, tyAdtDef ty = some adt ∧ tcx.adtDestructor adt = none
        ∧ tcx.adtIsEnum adt = true)
    ∨ (∃ adt dtor, tyAdtDef ty = some adt ∧ tcx.adtDestructor adt = some dtor
        ∧ tcx.crossCrateInlinable dtor = true)

/-- The claim's (unamended) incremental-mode duplication condition for
concrete drop glue, following the spec's words: the type is an enum
without a user destructor, or its user destructor is cross-unit-inlinable
(no case for a type without an ADT definition). -/
def specClaimedIncrementalDropGlueDuplicates (tcx : Tcx) (ty : Ty) : Prop :=
  (∃ adt, tyAdtDef ty = some adt ∧ tcx.adtDestructor adt = none
      ∧ tcx.adtIsEnum adt = true)
    ∨ (∃ adt dtor, tyAdtDef ty = some adt ∧ tcx.adtDestructor adt = some dtor
        ∧ tcx.crossCrateInlinable dtor = true)

/-- A base query context for concrete evaluations: every oracle is the
simplest constant. -/
def tcx0 : Tcx where
  typeOf := fun _ => .base 0
  params := fun _ => []
  unusedGenericParams := fun _ => ⟨0⟩
  polymorphizeEnabled := true
  resolveInstance := fun _ _ _ => .ok none
  isClosureOrCoroutine := fun _ => false
  bodyCodegenAttrsTrackCaller := fun _ => false
  codegenFnAttrsTrackCaller := fun _ => false
  fnSigInputs := fun _ => []
  genericsHasSelf := fun _ => false
  shouldInheritTrackCaller := fun _ => false
  assocItemIsInTraitContainer := fun _ => false
  fnOnceCallOnceDefId := 100
  closureSigTupledInputsTy := fun _ => .tuple []
  coroutineKindOf := fun _ => none
  langFutureTrait := none
  langIteratorTrait := none
  langAsyncIteratorTrait := none
  langCoroutineTrait := none
  langFuturePoll := none
  langIteratorNext := none
  langAsyncIteratorPollNext := none
  langCoroutineResume := none
  shareGenerics := false
  isLocalDef := fun _ => false
  upstreamMonomorphizationsFor := fun _ => none
  upstreamDropGlueFor := fun _ => none
  incrementalIsSome := false
  adtIsEnum := fun _ => false
  adtDestructor := fun _ => none
  crossCrateInlinable := fun _ => false
  defKeyIsCtorOrClosure := fun _ => false
  showTy := fun _ => "T"

/-- Context for the C2 witness: method 4's signature takes `Self` (the
parameter of index 0) first, and its generics carry a `Self` parameter. -/
def tcxC2 : Tcx :=
  { tcx0 with
    fnSigInputs := fun _ => [.param 0, .base 1]
    genericsHasSelf := fun _ => true }

/-- Context for the C3 witness: the resolver query resolves definition 4
to a virtual-dispatch instance in slot 2 over definition 7. -/
def tcxC3 : Tcx :=
  { tcx0 with
    resolveInstance := fun _ d _ =>
      if d = 4 then .ok (some { defn := .Virtual 7 2, args := [.base 5] })
      else .ok none }

/-- Context for the C5 witness: definition 5 is an async-desugared
coroutine whose canonical capture-kind argument is `base 3`; trait 20 is
the `Future` trait and definition 21 its `poll` method. -/
def tcxC5 : Tcx :=
  { tcx0 with
    typeOf := fun d =>
      if d = 5 then .coroutine 5 [.base 0, .base 1, .base 3, .base 0, .base 0, .base 0, .tuple [.base 9]]
      else .base 0
    coroutineKindOf := fun d => if d = 5 then some .desugaredAsync else none
    langFutureTrait := some 20
    langFuturePoll := some 21 }

/-- Context for the C6 witness: sharing disabled, definition 4 non-local
and present in the registry with a crate entry. -/
def tcxC6 : Tcx :=
  { tcx0 with
    shareGenerics := false
    upstreamMonomorphizationsFor := fun d =>
      if d = 4 then some (fun _ => some 11) else none }

/-- Context for the C7 counterexample and witness: incremental mode is
active. -/
def tcxC7 : Tcx :=
  { tcx0 with incrementalIsSome := true }

/-- Context for the C9 witness: definition 6 is a closure. -/
def tcxC9 : Tcx :=
  { tcx0 with isClosureOrCoroutine := fun d => d = 6 }

/-! ### Structural equality is propositional equality -/

theorem Ty.beq_and_beqList_iff (n : Nat) :
    (∀ t u : Ty, sizeOf t ≤ n → (Ty.beq t u = true ↔ t = u)) ∧
    (∀ ts us : List Ty, sizeOf ts ≤ n → (Ty.beqList ts us = true ↔ ts = us)) := by
  induction n using Nat.strong_induction_on with
  | _ n ih =>
    constructor
    · intro t u hs
      cases t <;> cases u <;> simp [Ty.beq]
      case tuple.tuple ts us =>
        have hts : sizeOf ts < n := by
          have : sizeOf ts < sizeOf (Ty.tuple ts) := by simp <;> omega
          omega
        exact (ih (sizeOf ts) hts).2 ts us le_rfl
      case adt.adt d a e b =>
        intro _
        have ha : sizeOf a < n := by
          have : sizeOf a < sizeOf (Ty.adt d a) := by simp <;> omega
          omega
        exact (ih (sizeOf a) ha).2 a b le_rfl
      case closure.closure d a e b =>
        intro _
        have ha : sizeOf a < n := by
          have : sizeOf a < sizeOf (Ty.closure d a) := by simp <;> omega
          omega
        exact (ih (sizeOf a) ha).2 a b le_rfl
      case coroutine.coroutine d a e b =>
        intro _
        have ha : sizeOf a < n := by
          have : sizeOf a < sizeOf (Ty.coroutine d a) := by simp <;> omega
          omega
        exact (ih (sizeOf a) ha).2 a b le_rfl
    · intro ts us hs
      cases ts <;> cases us <;> simp [Ty.beqList]
      case cons.cons t ts u us =>
        have h1 : sizeOf t < n := by
          have : sizeOf t < sizeOf (t :: ts) := by simp <;> omega
          omega
        have h2 : sizeOf ts < n := by
          have : sizeOf ts < sizeOf (t :: ts) := by simp <;> omega
          omega
        rw [(ih (sizeOf t) h1).1 t u le_rfl, (ih (sizeOf ts) h2).2 ts us le_rfl]

theorem Ty.beq_iff (t u : Ty) : Ty.beq t u = true ↔ t = u :=
  (Ty.beq_and_beqList_iff (sizeOf t)).1 t u le_rfl

theorem Ty.beqList_iff (ts us : List Ty) : Ty.beqList ts us = true ↔ ts = us :=
  (Ty.beq_and_beqList_iff (sizeOf ts)).2 ts us le_rfl

theorem Ty.beq_refl (t : Ty) : Ty.beq t t = true :=
  (Ty.beq_iff t t).mpr rfl

theorem Ty.beqList_refl (ts : List Ty) : Ty.beqList ts ts = true :=
  (Ty.beqList_iff ts ts).mpr rfl

/-! ### Claim theorems -/

/-- C8: an instance whose definition is unconditionally inline-marked
(`requires_inline`) duplicates per unit whatever the incremental-mode
state, and a `ThreadLocalShim` never duplicates. -/
theorem claim_C8_duplication_monotonicity :
    (∀ (tcx : Tcx) (idf : InstanceDef), idf.requires_inline tcx = true →
        idf.generates_cgu_internal_copy tcx = true) ∧
    (∀ (tcx : Tcx) (d : DefId),
        (InstanceDef.ThreadLocalShim d).generates_cgu_internal_copy tcx = false) := by
  constructor
  · intro tcx idf h
    unfold InstanceDef.generates_cgu_internal_copy
    rw [h]
    rfl
  · intro tcx d
    rfl

/-- C8 witness: a `ReifyShim` is unconditionally inline-marked and the
duplication policy duplicates it. -/
theorem claim_C8_witness :
    (InstanceDef.ReifyShim 3).requires_inline tcx0 = true ∧
    (InstanceDef.ReifyShim 3).generates_cgu_internal_copy tcx0 = true :=
  ⟨rfl, claim_C8_duplication_monotonicity.1 tcx0 (.ReifyShim 3) rfl⟩

/-- C9: the programming-contract asserts fail fast: `resolve_for_fn_ptr`
on a closure/coroutine takes the fault path, and `Instance::new` on an
argument list with escaping bound variables takes the fault path. -/
theorem claim_C9_contract_violations_fail_fast (tcx : Tcx) (param_env : ParamEnv)
    (def_id other_def : DefId) (args args2 : List Ty) :
    (tcx.isClosureOrCoroutine def_id = true →
      Instance.resolve_for_fn_ptr tcx param_env def_id args = .error ()) ∧
    (hasEscapingBoundVars args2 = true →
      Instance.new other_def args2 = .error ()) := by
  constructor
  · intro h
    unfold Instance.resolve_for_fn_ptr
    rw [h]
    rfl
  · intro h
    unfold Instance.new
    rw [h]
    rfl

/-- C9 witness: definition 6 is a closure in `tcxC9`, and `[bound 0]` has
an escaping bound variable; both constructions fault. -/
theorem claim_C9_witness :
    tcxC9.isClosureOrCoroutine 6 = true ∧
    hasEscapingBoundVars [.bound 0] = true ∧
    Instance.resolve_for_fn_ptr tcxC9 0 6 [] = .error () ∧
    Instance.new 4 [.bound 0] = .error () := by
  have h1 : tcxC9.isClosureOrCoroutine 6 = true := by simp [tcxC9, tcx0]
  have h2 : hasEscapingBoundVars [.bound 0] = true := by
    simp [hasEscapingBoundVars, Ty.hasEscapingBoundVars]
  exact ⟨h1, h2,
    (claim_C9_contract_violations_fail_fast tcxC9 0 6 4 [] [.bound 0]).1 h1,
    (claim_C9_contract_violations_fail_fast tcxC9 0 6 4 [] [.bound 0]).2 h2⟩

/-- C2: when a method's first signature input is syntactically the `Self`
parameter (parameter index 0), the receiver is unsized, and the generics
carry a `Self` parameter, `resolve_for_vtable` returns a `VTableShim` over
the method with the given arguments, without consulting the resolver. -/
theorem claim_C2_vtable_shim_unconditional (tcx : Tcx) (param_env : ParamEnv)
    (def_id : DefId) (args : List Ty)
    (h1 : tcx.fnSigInputs def_id ≠ [])
    (h2 : (tcx.fnSigInputs def_id).getD 0 (.tuple []) = .param 0)
    (h3 : tcx.genericsHasSelf def_id = true) :
    Instance.resolve_for_vtable tcx param_env def_id args =
      some { defn := .VTableShim def_id, args } := by
  have hne : (tcx.fnSigInputs def_id).isEmpty = false := by
    simpa [List.isEmpty_iff] using h1
  have h2' : (tcx.fnSigInputs def_id)[0]?.getD (Ty.tuple []) = Ty.param 0 := by
    rw [← List.getD_eq_getElem?_getD]
    exact h2
  unfold Instance.resolve_for_vtable
  simp [hne, h2', h3]

/-- C2 witness: in `tcxC2` every method signature starts with the `Self`
parameter and has a `Self` generic, so resolution yields the shim. -/
theorem claim_C2_witness :
    tcxC2.fnSigInputs 4 ≠ [] ∧
    (tcxC2.fnSigInputs 4).getD 0 (.tuple []) = .param 0 ∧
    tcxC2.genericsHasSelf 4 = true ∧
    Instance.resolve_for_vtable tcxC2 0 4 [.base 8] =
      some { defn := .VTableShim 4, args := [.base 8] } := by
  have h1 : tcxC2.fnSigInputs 4 ≠ [] := by simp [tcxC2, tcx0]
  have h2 : (tcxC2.fnSigInputs 4).getD 0 (.tuple []) = .param 0 := by simp [tcxC2, tcx0]
  have h3 : tcxC2.genericsHasSelf 4 = true := by simp [tcxC2, tcx0]
  exact ⟨h1, h2, h3, claim_C2_vtable_shim_unconditional tcxC2 0 4 [.base 8] h1 h2 h3⟩

/-- C3: `resolve_for_fn_ptr` rewraps a caller-location-requiring `Item` or
a `Virtual` resolution in a `ReifyShim` over the same definition id with
the same arguments, and returns every other resolved kind unchanged. -/
theorem claim_C3_reify_wrapping (tcx : Tcx) (param_env : ParamEnv)
    (def_id : DefId) (args : List Ty) (resolved : Instance)
    (hnc : tcx.isClosureOrCoroutine def_id = false)
    (hres : Instance.resolve tcx param_env def_id args = .ok (some resolved)) :
    (∀ d, resolved.defn = .Item d →
      resolved.defn.requires_caller_location tcx = true →
      Instance.resolve_for_fn_ptr tcx param_env def_id args =
        .ok (some { defn := .ReifyShim d, args := resolved.args })) ∧
    (∀ d slot, resolved.defn = .Virtual d slot →
      Instance.resolve_for_fn_ptr tcx param_env def_id args =
        .ok (some { defn := .ReifyShim d, args := resolved.args })) ∧
    ((match resolved.defn with
      | .Item _ => resolved.defn.requires_caller_location tcx = false
      | .Virtual _ _ => False
      | _ => True) →
      Instance.resolve_for_fn_ptr tcx param_env def_id args = .ok (some resolved)) := by
  refine ⟨?_, ?_, ?_⟩
  · intro d hd hcl
    unfold Instance.resolve_for_fn_ptr
    rw [hnc]
    simp [resolveOkFlatten, hres, hd]
    rw [← hd, hcl]
    simp
  · intro d slot hd
    unfold Instance.resolve_for_fn_ptr
    rw [hnc]
    simp [resolveOkFlatten, hres, hd]
  · intro hother
    unfold Instance.resolve_for_fn_ptr
    rw [hnc]
    simp only [Bool.false_eq_true, if_false, resolveOkFlatten, hres, Option.map_some]
    cases hdefn : resolved.defn <;> simp [hdefn] at hother ⊢
    intro hcl
    rw [hother] at hcl
    simp at hcl

/-- C3 witness: in `tcxC3`, definition 4 resolves to a `Virtual` instance,
and taking its function pointer rewraps it in a `ReifyShim` over the
virtual target's definition id. -/
theorem claim_C3_witness :
    tcxC3.isClosureOrCoroutine 4 = false ∧
    Instance.resolve tcxC3 0 4 [.base 2] =
      .ok (some { defn := .Virtual 7 2, args := [.base 5] }) ∧
    Instance.resolve_for_fn_ptr tcxC3 0 4 [.base 2] =
      .ok (some { defn := .ReifyShim 7, args := [.base 5] }) := by
  have h1 : tcxC3.isClosureOrCoroutine 4 = false := by simp [tcxC3, tcx0]
  have h2 : Instance.resolve tcxC3 0 4 [.base 2] =
      .ok (some { defn := .Virtual 7 2, args := [.base 5] }) := by
    simp [Instance.resolve, tcxC3, tcx0]
  exact ⟨h1, h2,
    (claim_C3_reify_wrapping tcxC3 0 4 [.base 2] _ h1 h2).2.1 7 2 rfl⟩

/-- C7 (amended): concrete-type drop glue always duplicates outside
incremental mode; in incremental mode it duplicates exactly when the type
has no ADT definition, or is an enum without a user destructor, or its
user destructor is cross-unit-inlinable. -/
theorem claim_C7_amended_dropglue_policy (tcx : Tcx) (d : DefId) (ty : Ty) :
    (tcx.incrementalIsSome = false →
      (InstanceDef.DropGlue d (some ty)).generates_cgu_internal_copy tcx = true) ∧
    (tcx.incrementalIsSome = true →
      ((InstanceDef.DropGlue d (some ty)).generates_cgu_internal_copy tcx = true ↔
        specIncrementalDropGlueDuplicates tcx ty)) := by
  constructor
  · intro h
    unfold InstanceDef.generates_cgu_internal_copy InstanceDef.requires_inline
    simp [h]
  · intro h
    unfold InstanceDef.generates_cgu_internal_copy InstanceDef.requires_inline
    simp only [h]
    cases hadt : tyAdtDef ty with
    | none => simp [specIncrementalDropGlueDuplicates, hadt]
    | some adt =>
      cases hdtor : tcx.adtDestructor adt with
      | none => simp [specIncrementalDropGlueDuplicates, hadt, hdtor]
      | some dtor => simp [specIncrementalDropGlueDuplicates, hadt, hdtor]

/-- C7 counterexample: in incremental mode, drop glue for a type with no
ADT definition (the empty tuple) still duplicates, although the claim's
condition (enum without destructor, or inlinable destructor) fails. -/
theorem claim_C7_counterexample :
    (InstanceDef.DropGlue 0 (some (.tuple []))).generates_cgu_internal_copy tcxC7 = true ∧
    tcxC7.incrementalIsSome = true ∧
    ¬ specClaimedIncrementalDropGlueDuplicates tcxC7 (.tuple []) := by
  refine ⟨rfl, rfl, ?_⟩
  rintro (⟨adt, hadt, _⟩ | ⟨adt, dtor, hadt, _⟩) <;> simp [tyAdtDef] at hadt

/-- C7 witness: the amended characterization applied in incremental mode
to the empty tuple. -/
theorem claim_C7_witness :
    tcxC7.incrementalIsSome = true ∧
    ((InstanceDef.DropGlue 0 (some (.tuple []))).generates_cgu_internal_copy tcxC7 = true ↔
      specIncrementalDropGlueDuplicates tcxC7 (.tuple [])) :=
  ⟨rfl, (claim_C7_amended_dropglue_policy tcxC7 0 (.tuple [])).2 rfl⟩

/-- C10 (amended): the display suffix is constant per variant as listed;
the seven constant suffixes of `Item`, `VTableShim`, `ReifyShim`,
`ThreadLocalShim`, `Intrinsic`, the shared closure/coroutine `" - shim"`
and `DropGlue(None)` are pairwise distinct; `Virtual` embeds its slot
index and the type-carrying shims embed their printed type; but the three
closure/coroutine construction shims share one suffix and the three
type-carrying shims share one suffix shape, so the suffix does not
uniquely identify the variant. -/
theorem claim_C10_amended_display_suffixes (tcx : Tcx) (d e : DefId) (b : Bool)
    (ck : ClosureKind) (n : Nat) (ty : Ty) :
    instanceSuffix tcx (.Item d) = "" ∧
    instanceSuffix tcx (.VTableShim d) = " - shim(vtable)" ∧
    instanceSuffix tcx (.ReifyShim d) = " - shim(reify)" ∧
    instanceSuffix tcx (.ThreadLocalShim d) = " - shim(tls)" ∧
    instanceSuffix tcx (.Intrinsic d) = " - intrinsic" ∧
    instanceSuffix tcx (.Virtual d n) = " - virtual#" ++ toString n ∧
    instanceSuffix tcx (.FnPtrShim d ty) = " - shim(" ++ tcx.showTy ty ++ ")" ∧
    instanceSuffix tcx (.ClosureOnceShim d b) = " - shim" ∧
    instanceSuffix tcx (.ConstructCoroutineInClosureShim d ck) = " - shim" ∧
    instanceSuffix tcx (.CoroutineByMoveShim d) = " - shim" ∧
    instanceSuffix tcx (.DropGlue d none) = " - shim(None)" ∧
    instanceSuffix tcx (.DropGlue d (some ty)) = " - shim(Some(" ++ tcx.showTy ty ++ "))" ∧
    instanceSuffix tcx (.CloneShim d ty) = " - shim(" ++ tcx.showTy ty ++ ")" ∧
    instanceSuffix tcx (.FnPtrAddrShim d ty) = " - shim(" ++ tcx.showTy ty ++ ")" ∧
    instanceSuffix tcx (.ClosureOnceShim d b) =
      instanceSuffix tcx (.CoroutineByMoveShim e) ∧
    instanceSuffix tcx (.FnPtrShim d ty) = instanceSuffix tcx (.CloneShim e ty) ∧
    List.Pairwise (fun a b => a ≠ b)
      ["", " - shim(vtable)", " - shim(reify)", " - shim(tls)",
        " - intrinsic", " - shim", " - shim(None)"] := by
  refine ⟨rfl, rfl, rfl, rfl, rfl, rfl, rfl, rfl, rfl, rfl, rfl, rfl, rfl, rfl,
    rfl, rfl, ?_⟩
  decide

/-- C10 counterexample: two distinct variants print the same suffix, so
the suffix does not uniquely identify the variant. -/
theorem claim_C10_counterexample :
    instanceSuffix tcx0 (.ClosureOnceShim 0 false) =
      instanceSuffix tcx0 (.CoroutineByMoveShim 1) ∧
    InstanceDef.ClosureOnceShim 0 false ≠ InstanceDef.CoroutineByMoveShim 1 :=
  ⟨rfl, fun h => InstanceDef.noConfusion h⟩

/-- C6: the sharing oracle's rules in order — disabled sharing, a local
definition, or a fully erasable argument list each force `none`; otherwise
the kind-appropriate registry is consulted and every other kind yields
`none`. -/
theorem claim_C6_sharing_oracle_rules (tcx : Tcx) (inst : Instance) :
    (tcx.shareGenerics = false → inst.upstream_monomorphization tcx = none) ∧
    (tcx.isLocalDef inst.def_id = true → inst.upstream_monomorphization tcx = none) ∧
    ((nonErasableGenerics inst.args).isEmpty = true →
      inst.upstream_monomorphization tcx = none) ∧
    (tcx.shareGenerics = true → tcx.isLocalDef inst.def_id = false →
      (nonErasableGenerics inst.args).isEmpty = false →
      (∀ d, inst.defn = .Item d →
        inst.upstream_monomorphization tcx =
          (tcx.upstreamMonomorphizationsFor d).bind fun monos => monos inst.args) ∧
      (∀ d t, inst.defn = .DropGlue d (some t) →
        inst.upstream_monomorphization tcx = tcx.upstreamDropGlueFor inst.args) ∧
      ((match inst.defn with
        | .Item _ => False
        | .DropGlue _ (some _) => False
        | _ => True) →
        inst.upstream_monomorphization tcx = none)) := by
  refine ⟨?_, ?_, ?_, ?_⟩
  · intro h
    unfold Instance.upstream_monomorphization
    simp [h]
  · intro h
    unfold Instance.upstream_monomorphization
    simp [h]
  · intro h
    unfold Instance.upstream_monomorphization
    simp [h]
  · intro h1 h2 h3
    refine ⟨?_, ?_, ?_⟩
    · intro d hd
      unfold Instance.upstream_monomorphization
      simp [h1, h2, h3, hd]
    · intro d t hd
      unfold Instance.upstream_monomorphization
      simp [h1, h2, h3, hd]
    · intro hother
      unfold Instance.upstream_monomorphization
      simp only [h1, h2, h3]
      cases hdefn : inst.defn <;> simp [hdefn] at hother ⊢
      case DropGlue d oty =>
        cases oty with
        | none => simp
        | some t => simp at hother

/-- C1 (amended): the adapter decision matches the compatibility table —
identical kinds and (shared-ref, mutable-ref) need no adapter and resolve
to the closure's own `Item` body; (shared-ref or mutable-ref, value)
synthesizes the `ClosureOnceShim` adapter instance; the two invalid pairs
are signalled as the fault result (`Err`) of the decision function, but
`resolve_closure`'s catch-all arm swallows that error and still returns
the closure's own `Item` instance rather than raising. -/
theorem claim_C1_closure_adapter_table (tcx : Tcx) (def_id : DefId) (args : List Ty)
    (hesc : hasEscapingBoundVars args = false) :
    (needs_fn_once_adapter_shim .Fn .Fn = .ok false ∧
      needs_fn_once_adapter_shim .FnMut .FnMut = .ok false ∧
      needs_fn_once_adapter_shim .FnOnce .FnOnce = .ok false ∧
      needs_fn_once_adapter_shim .Fn .FnMut = .ok false ∧
      needs_fn_once_adapter_shim .Fn .FnOnce = .ok true ∧
      needs_fn_once_adapter_shim .FnMut .FnOnce = .ok true ∧
      needs_fn_once_adapter_shim .FnMut .Fn = .error () ∧
      needs_fn_once_adapter_shim .FnOnce .Fn = .error ()) ∧
    (∀ req : ClosureKind,
      needs_fn_once_adapter_shim (closureArgsKind args) req = .ok false →
      Instance.resolve_closure tcx def_id args req =
        .ok { defn := .Item def_id, args }) ∧
    (∀ req : ClosureKind,
      needs_fn_once_adapter_shim (closureArgsKind args) req = .ok true →
      Instance.resolve_closure tcx def_id args req =
        .ok (Instance.fn_once_adapter_instance tcx def_id args)) ∧
    (∀ req : ClosureKind,
      needs_fn_once_adapter_shim (closureArgsKind args) req = .error () →
      Instance.resolve_closure tcx def_id args req =
        .ok { defn := .Item def_id, args }) ∧
    (Instance.fn_once_adapter_instance tcx def_id args).defn =
      .ClosureOnceShim tcx.fnOnceCallOnceDefId (tcx.codegenFnAttrsTrackCaller def_id) := by
  refine ⟨⟨rfl, rfl, rfl, rfl, rfl, rfl, rfl, rfl⟩, ?_, ?_, ?_, rfl⟩
  · intro req h
    simp [Instance.resolve_closure, h, Instance.new, hesc]
  · intro req h
    simp [Instance.resolve_closure, h]
  · intro req h
    simp [Instance.resolve_closure, h, Instance.new, hesc]

/-- C1 witness: a closure of actual kind shared-ref, requested by value,
resolves to the adapter shim; requested by mutable-ref it resolves to its
own item body. -/
theorem claim_C1_witness :
    hasEscapingBoundVars [Ty.base 0, Ty.base 5, Ty.tuple []] = false ∧
    closureArgsKind [Ty.base 0, Ty.base 5, Ty.tuple []] = .Fn ∧
    Instance.resolve_closure tcx0 9 [Ty.base 0, Ty.base 5, Ty.tuple []] .FnOnce =
      .ok (Instance.fn_once_adapter_instance tcx0 9 [Ty.base 0, Ty.base 5, Ty.tuple []]) ∧
    Instance.resolve_closure tcx0 9 [Ty.base 0, Ty.base 5, Ty.tuple []] .FnMut =
      .ok { defn := .Item 9, args := [Ty.base 0, Ty.base 5, Ty.tuple []] } := by
  have hesc : hasEscapingBoundVars [Ty.base 0, Ty.base 5, Ty.tuple []] = false := by
    simp [hasEscapingBoundVars, Ty.hasEscapingBoundVars]
  have hkind : closureArgsKind [Ty.base 0, Ty.base 5, Ty.tuple []] = .Fn := by decide
  have h1 : needs_fn_once_adapter_shim
      (closureArgsKind [Ty.base 0, Ty.base 5, Ty.tuple []]) .FnOnce = .ok true := by
    rw [hkind]
    rfl
  have h2 : needs_fn_once_adapter_shim
      (closureArgsKind [Ty.base 0, Ty.base 5, Ty.tuple []]) .FnMut = .ok false := by
    rw [hkind]
    rfl
  exact ⟨hesc, hkind,
    (claim_C1_closure_adapter_table tcx0 9 _ hesc).2.2.1 .FnOnce h1,
    (claim_C1_closure_adapter_table tcx0 9 _ hesc).2.1 .FnMut h2⟩

/-- C1 counterexample: on an invalid pair (actual kind value, requested
kind shared-ref) the decision function signals the fault result, yet
`resolve_closure`'s catch-all arm still returns a resolved `Item`
instance — the original claim's "rather than returning a resolved
instance" fails. -/
theorem claim_C1_counterexample :
    needs_fn_once_adapter_shim
      (closureArgsKind [Ty.base 2, Ty.base 5, Ty.tuple []]) .Fn = .error () ∧
    Instance.resolve_closure tcx0 9 [Ty.base 2, Ty.base 5, Ty.tuple []] .Fn =
      .ok { defn := .Item 9, args := [Ty.base 2, Ty.base 5, Ty.tuple []] } := by
  have hesc : hasEscapingBoundVars [Ty.base 2, Ty.base 5, Ty.tuple []] = false := by
    simp [hasEscapingBoundVars, Ty.hasEscapingBoundVars]
  have hn : needs_fn_once_adapter_shim
      (closureArgsKind [Ty.base 2, Ty.base 5, Ty.tuple []]) .Fn = .error () := rfl
  exact ⟨hn, by simp [Instance.resolve_closure, hn, Instance.new, hesc]⟩

/-- C5: resolving a built-in coroutine-driving trait method against a
coroutine receiver — the driving method resolves to the coroutine's own
`Item` body when the receiver's capture-kind argument matches the
definition's canonical one and to a `CoroutineByMoveShim` otherwise, and
any other (defaulted) method of the trait resolves to an ordinary `Item`
over the trait method itself. -/
theorem claim_C5_coroutine_dispatch (tcx : Tcx) (trait_item_id trait_id : DefId)
    (rcvr_args : List Ty) (cdef : DefId) (cargs : List Ty) (ck : CoroutineKind)
    (item : Option DefId) (x : DefId) (id_args : List Ty)
    (hrcvr : typeAt rcvr_args 0 = .coroutine cdef cargs)
    (hck : tcx.coroutineKindOf cdef = some ck)
    (hdrive :
      (tcx.langFutureTrait = some trait_id ∧ ck = .desugaredAsync ∧
        item = tcx.langFuturePoll) ∨
      (tcx.langFutureTrait ≠ some trait_id ∧ tcx.langIteratorTrait = some trait_id ∧
        ck = .desugaredGen ∧ item = tcx.langIteratorNext) ∨
      (tcx.langFutureTrait ≠ some trait_id ∧ tcx.langIteratorTrait ≠ some trait_id ∧
        tcx.langAsyncIteratorTrait = some trait_id ∧ ck = .desugaredAsyncGen ∧
        item = tcx.langAsyncIteratorPollNext) ∨
      (tcx.langFutureTrait ≠ some trait_id ∧ tcx.langIteratorTrait ≠ some trait_id ∧
        tcx.langAsyncIteratorTrait ≠ some trait_id ∧
        tcx.langCoroutineTrait = some trait_id ∧ ck = .coroutine ∧
        item = tcx.langCoroutineResume)) :
    (item = some trait_item_id → tcx.typeOf cdef = .coroutine x id_args →
      (coroutineKindTy cargs = coroutineKindTy id_args →
        Instance.try_resolve_item_for_coroutine tcx trait_item_id trait_id rcvr_args =
          .ok (some { defn := .Item cdef, args := cargs })) ∧
      (coroutineKindTy cargs ≠ coroutineKindTy id_args →
        Instance.try_resolve_item_for_coroutine tcx trait_item_id trait_id rcvr_args =
          .ok (some { defn := .CoroutineByMoveShim cdef, args := cargs }))) ∧
    (∀ other, item = some other → other ≠ trait_item_id →
      hasEscapingBoundVars rcvr_args = false →
      Instance.try_resolve_item_for_coroutine tcx trait_item_id trait_id rcvr_args =
        .ok (some { defn := .Item trait_item_id, args := rcvr_args })) := by
  have hbody : Instance.try_resolve_item_for_coroutine tcx trait_item_id trait_id rcvr_args
      = coroutineResolveBody tcx trait_item_id cdef cargs rcvr_args item := by
    unfold Instance.try_resolve_item_for_coroutine
    rw [hrcvr]
    rcases hdrive with ⟨h1, h2, h3⟩ | ⟨h0, h1, h2, h3⟩ | ⟨h0a, h0b, h1, h2, h3⟩ |
        ⟨h0a, h0b, h0c, h1, h2, h3⟩ <;> subst h3 <;> subst h2 <;>
      simp_all [hck]
  constructor
  · intro hitem htyp
    constructor
    · intro heq
      rw [hbody]
      unfold coroutineResolveBody
      rw [if_pos hitem, htyp]
      have hbe : Ty.beq (coroutineKindTy cargs) (coroutineKindTy id_args) = true :=
        (Ty.beq_iff _ _).mpr heq
      simp [hbe]
    · intro hne
      rw [hbody]
      unfold coroutineResolveBody
      rw [if_pos hitem, htyp]
      have hbe : Ty.beq (coroutineKindTy cargs) (coroutineKindTy id_args) = false := by
        cases hb : Ty.beq (coroutineKindTy cargs) (coroutineKindTy id_args) with
        | true => exact absurd ((Ty.beq_iff _ _).mp hb) hne
        | false => rfl
      simp [hbe]
  · intro other hitem hne hesc
    rw [hbody]
    unfold coroutineResolveBody
    rw [hitem]
    have hcond : ¬ ((some other : Option DefId) = some trait_item_id) := by
      simp [hne]
    rw [if_neg hcond]
    simp [Instance.new, hesc, Except.map]

/-- C5 witness: in `tcxC5`, polling the async coroutine 5 whose receiver
capture-kind matches its definition's canonical capture-kind resolves to
the coroutine's own body. -/
theorem claim_C5_witness :
    typeAt [Ty.coroutine 5 [.base 0, .base 1, .base 3, .base 0, .base 0, .base 0,
        .tuple [.base 9]]] 0 =
      .coroutine 5 [.base 0, .base 1, .base 3, .base 0, .base 0, .base 0,
        .tuple [.base 9]] ∧
    tcxC5.coroutineKindOf 5 = some .desugaredAsync ∧
    tcxC5.langFutureTrait = some 20 ∧
    tcxC5.langFuturePoll = some 21 ∧
    Instance.try_resolve_item_for_coroutine tcxC5 21 20
        [Ty.coroutine 5 [.base 0, .base 1, .base 3, .base 0, .base 0, .base 0,
          .tuple [.base 9]]] =
      .ok (some { defn := .Item 5,
                  args := [.base 0, .base 1, .base 3, .base 0, .base 0, .base 0,
                    .tuple [.base 9]] }) := by
  have hrcvr : typeAt [Ty.coroutine 5 [.base 0, .base 1, .base 3, .base 0, .base 0,
      .base 0, .tuple [.base 9]]] 0 =
      .coroutine 5 [.base 0, .base 1, .base 3, .base 0, .base 0, .base 0,
        .tuple [.base 9]] := rfl
  have hck : tcxC5.coroutineKindOf 5 = some .desugaredAsync := by simp [tcxC5, tcx0]
  have htyp : tcxC5.typeOf 5 = .coroutine 5 [.base 0, .base 1, .base 3, .base 0,
      .base 0, .base 0, .tuple [.base 9]] := by simp [tcxC5, tcx0]
  have hitem : tcxC5.langFuturePoll = some 21 := rfl
  refine ⟨hrcvr, hck, rfl, rfl, ?_⟩
  exact ((claim_C5_coroutine_dispatch tcxC5 21 20 _ 5 _ .desugaredAsync
      tcxC5.langFuturePoll 5 _ hrcvr hck (Or.inl ⟨rfl, rfl, rfl⟩)).1 hitem htyp).1 rfl

/-! ### Specialization folder: supporting lemmas for C4 -/

/-- The per-parameter entry produced by the specialization fold (the body
of the `GenericArgs::for_item` closure in `polymorphize`). -/
def polyEntry (tcx : Tcx) (inst : InstanceDef) (args : List Ty)
    (i : Nat) (k : GenericParamKind) : Ty :=
  match k with
  | .type =>
    if (hasUpvarsB tcx inst.def_id args
        && optTyBeq (upvarsTyOpt tcx inst.def_id args)
            (some (expectTy (args.getD i (.tuple []))))) = true then
      foldTy tcx (tupledUpvarsTy args)
    else if (tcx.unusedGenericParams inst).is_unused i then mkParamFromKind .type i
    else args.getD i (.tuple [])
  | .const =>
    if (tcx.unusedGenericParams inst).is_unused i then mkParamFromKind .const i
    else args.getD i (.tuple [])
  | .lifetime => args.getD i (.tuple [])

theorem polymorphize_eq_map (tcx : Tcx) (inst : InstanceDef) (args : List Ty) :
    polymorphize tcx inst args =
      (tcx.params inst.def_id).enum.map fun p => polyEntry tcx inst args p.1 p.2 := by
  unfold polymorphize
  simp only [polyEntry, dite_eq_ite]

theorem polymorphize_length (tcx : Tcx) (inst : InstanceDef) (args : List Ty) :
    (polymorphize tcx inst args).length = (tcx.params inst.def_id).length := by
  rw [polymorphize_eq_map]
  simp [List.enum_length]

theorem polymorphize_getD (tcx : Tcx) (inst : InstanceDef) (args : List Ty)
    (i : Nat) (hi : i < (tcx.params inst.def_id).length) :
    (polymorphize tcx inst args).getD i (.tuple []) =
      polyEntry tcx inst args i ((tcx.params inst.def_id)[i]) := by
  rw [polymorphize_eq_map, List.getD_eq_getElem?_getD, List.getElem?_map,
    List.getElem?_enum]
  rw [List.getElem?_eq_getElem hi]
  rfl

theorem upvarsTyOpt_of_headed (tcx : Tcx) (d : DefId) (args : List Ty)
    (h : closureOrCoroutineHeaded (tcx.typeOf d) = true) :
    upvarsTyOpt tcx d args = some (tupledUpvarsTy args) := by
  unfold upvarsTyOpt
  cases htd : tcx.typeOf d <;> simp [closureOrCoroutineHeaded, htd] at h ⊢

theorem upvarsTyOpt_of_not_headed (tcx : Tcx) (d : DefId) (args : List Ty)
    (h : closureOrCoroutineHeaded (tcx.typeOf d) = false) :
    upvarsTyOpt tcx d args = none := by
  unfold upvarsTyOpt
  cases htd : tcx.typeOf d <;> simp [closureOrCoroutineHeaded, htd] at h ⊢

theorem hasUpvarsB_eq_true_iff (tcx : Tcx) (d : DefId) (args : List Ty) :
    hasUpvarsB tcx d args = true ↔
      (closureOrCoroutineHeaded (tcx.typeOf d) = true ∧
        tupleFields (tupledUpvarsTy args) ≠ []) := by
  unfold hasUpvarsB upvarsTyOpt
  cases htd : tcx.typeOf d <;>
    simp [closureOrCoroutineHeaded, Option.elim, List.isEmpty_iff]

theorem expectTy_eq_self_or_junk (a : Ty) :
    expectTy a = a ∨ expectTy a = .tuple [] := by
  cases a <;> simp [expectTy]

theorem expectTy_expectTy (a : Ty) : expectTy (expectTy a) = expectTy a := by
  cases a <;> simp [expectTy]

theorem tupledUpvarsTy_eq_getD (args : List Ty) :
    tupledUpvarsTy args = expectTy (args.getD (args.length - 1) (.tuple [])) := by
  unfold tupledUpvarsTy
  rw [List.getLastD_eq_getLast?, List.getLast?_eq_getElem?,
    List.getD_eq_getElem?_getD]

theorem tupleFields_of_hasUpvars (tcx : Tcx) (d : DefId) (args : List Ty)
    (h : hasUpvarsB tcx d args = true) :
    ∃ ts : List Ty, ts ≠ [] ∧ tupledUpvarsTy args = .tuple ts := by
  have h2 := ((hasUpvarsB_eq_true_iff tcx d args).mp h).2
  cases htu : tupledUpvarsTy args <;> rw [htu] at h2 <;>
    simp [tupleFields] at h2 ⊢
  exact h2

theorem foldTy_leaf (tcx : Tcx) (t : Ty)
    (h : (match t with
      | .tuple _ => False
      | .adt _ _ => False
      | .closure _ _ => False
      | .coroutine _ _ => False
      | _ => True)) :
    foldTy tcx t = t := by
  cases t <;> simp at h <;> rw [foldTy.eq_def]

theorem foldTy_tuple (tcx : Tcx) (ts : List Ty) :
    foldTy tcx (.tuple ts) = .tuple (ts.map (foldTy tcx)) := by
  rw [foldTy.eq_def]
  simp [List.attach_map_val]

theorem foldTy_adt (tcx : Tcx) (d : DefId) (as : List Ty) :
    foldTy tcx (.adt d as) = .adt d (as.map (foldTy tcx)) := by
  rw [foldTy.eq_def]
  simp [List.attach_map_val]

theorem foldTy_closure (tcx : Tcx) (d : DefId) (a : List Ty) :
    foldTy tcx (.closure d a) =
      if Ty.beqList a (polymorphize tcx (.Item d) a) then .closure d a
      else .closure d (polymorphize tcx (.Item d) a) := by
  rw [foldTy.eq_def]

theorem foldTy_coroutine (tcx : Tcx) (d : DefId) (a : List Ty) :
    foldTy tcx (.coroutine d a) =
      if Ty.beqList a (polymorphize tcx (.Item d) a) then .coroutine d a
      else .coroutine d (polymorphize tcx (.Item d) a) := by
  rw [foldTy.eq_def]

theorem wf_tuple_iff (tcx : Tcx) (ts : List Ty) :
    Ty.wf tcx (.tuple ts) = true ↔ ∀ t ∈ ts, Ty.wf tcx t = true := by
  rw [Ty.wf.eq_def]
  simp [List.all_eq_true]

theorem wf_adt_iff (tcx : Tcx) (d : DefId) (as : List Ty) :
    Ty.wf tcx (.adt d as) = true ↔ ∀ t ∈ as, Ty.wf tcx t = true := by
  rw [Ty.wf.eq_def]
  simp [List.all_eq_true]

theorem wf_closure_iff (tcx : Tcx) (d : DefId) (a : List Ty) :
    Ty.wf tcx (.closure d a) = true ↔
      (a.length = (tcx.params d).length ∧ ∀ t ∈ a, Ty.wf tcx t = true) := by
  rw [Ty.wf.eq_def]
  simp [List.all_eq_true]

theorem wf_coroutine_iff (tcx : Tcx) (d : DefId) (a : List Ty) :
    Ty.wf tcx (.coroutine d a) = true ↔
      (a.length = (tcx.params d).length ∧ ∀ t ∈ a, Ty.wf tcx t = true) := by
  rw [Ty.wf.eq_def]
  simp [List.all_eq_true]

theorem wfArgs_iff (tcx : Tcx) (d : DefId) (args : List Ty) :
    wfArgs tcx d args = true ↔
      (args.length = (tcx.params d).length ∧ ∀ t ∈ args, Ty.wf tcx t = true) := by
  unfold wfArgs
  simp [List.all_eq_true]

theorem polymorphize_getElem? (tcx : Tcx) (inst : InstanceDef) (as : List Ty)
    (i : Nat) :
    (polymorphize tcx inst as)[i]? =
      ((tcx.params inst.def_id)[i]?).map fun k => polyEntry tcx inst as i k := by
  rw [polymorphize_eq_map, List.getElem?_map, List.getElem?_enum]
  cases (tcx.params inst.def_id)[i]? <;> rfl


theorem polymorphize_and_foldTy_idempotent (n : Nat) :
    (∀ (tcx : Tcx) (inst : InstanceDef) (args : List Ty), sizeOf args ≤ n →
      tcx.WellFormedGenerics → wfArgs tcx inst.def_id args = true →
      polymorphize tcx inst (polymorphize tcx inst args) = polymorphize tcx inst args) ∧
    (∀ (tcx : Tcx) (t : Ty), sizeOf t ≤ n →
      tcx.WellFormedGenerics → Ty.wf tcx t = true →
      foldTy tcx (foldTy tcx t) = foldTy tcx t) := by
  induction n using Nat.strong_induction_on with
  | _ n ih =>
  constructor
  · -- idempotence of the fold on one argument list
    intro tcx inst args hsz hwt hwf
    obtain ⟨hlen, hmem⟩ := (wfArgs_iff tcx inst.def_id args).mp hwf
    have hlen' : (polymorphize tcx inst args).length = (tcx.params inst.def_id).length :=
      polymorphize_length tcx inst args
    have hfd : ∀ (j : Nat) (hj : j < (tcx.params inst.def_id).length),
        (polymorphize tcx inst args).getD j (.tuple []) =
          polyEntry tcx inst args j ((tcx.params inst.def_id)[j]) :=
      fun j hj => polymorphize_getD tcx inst args j hj
    have hu_eq : tupledUpvarsTy args =
        expectTy (args.getD ((tcx.params inst.def_id).length - 1) (.tuple [])) := by
      rw [tupledUpvarsTy_eq_getD, hlen]
    cases hub : hasUpvarsB tcx inst.def_id args with
    | false =>
      -- the folded list has no observable upvars either
      have hub' : hasUpvarsB tcx inst.def_id (polymorphize tcx inst args) = false := by
        cases hhd : closureOrCoroutineHeaded (tcx.typeOf inst.def_id) with
        | false =>
          unfold hasUpvarsB
          rw [upvarsTyOpt_of_not_headed tcx inst.def_id _ hhd]
          rfl
        | true =>
          have hfu : tupleFields (tupledUpvarsTy args) = [] := by
            by_contra hne
            have hx := (hasUpvarsB_eq_true_iff tcx inst.def_id args).mpr ⟨hhd, hne⟩
            rw [hub] at hx
            exact Bool.noConfusion hx
          have hlast := hwt _ hhd
          have hPne : tcx.params inst.def_id ≠ [] :=
            List.getLast?_isSome.mp (by rw [hlast]; rfl)
          have hm : (tcx.params inst.def_id).length - 1 <
              (tcx.params inst.def_id).length := by
            have := List.length_pos.mpr hPne
            omega
          have hPm : (tcx.params inst.def_id)[(tcx.params inst.def_id).length - 1] =
              GenericParamKind.type := by
            rw [List.getLast?_eq_getElem?] at hlast
            obtain ⟨h', he⟩ := List.getElem?_eq_some_iff.mp hlast
            exact he
          have hu' : tupledUpvarsTy (polymorphize tcx inst args) =
              expectTy (polyEntry tcx inst args ((tcx.params inst.def_id).length - 1)
                GenericParamKind.type) := by
            rw [tupledUpvarsTy_eq_getD, hlen', hfd _ hm, hPm]
          unfold hasUpvarsB
          rw [upvarsTyOpt_of_headed tcx inst.def_id _ hhd]
          simp only [Option.elim, hu', polyEntry, hub, Bool.false_and]
          cases hun : (tcx.unusedGenericParams inst).is_unused
              ((tcx.params inst.def_id).length - 1) with
          | true =>
            simp [hun, mkParamFromKind, expectTy, tupleFields]
          | false =>
            simp only [hun, Bool.false_eq_true, if_false]
            rw [← hu_eq, hfu]
            simp
      apply List.ext_getElem?
      intro i
      rw [polymorphize_getElem? tcx inst (polymorphize tcx inst args) i,
        polymorphize_getElem? tcx inst args i]
      cases hPi : (tcx.params inst.def_id)[i]? with
      | none => rfl
      | some k =>
        obtain ⟨hi, hPik⟩ := List.getElem?_eq_some_iff.mp hPi
        simp only [Option.map_some']
        congr 1
        cases k with
        | lifetime =>
          simp only [polyEntry]
          rw [hfd i hi, hPik]
          simp only [polyEntry]
        | const =>
          simp only [polyEntry]
          cases hun : (tcx.unusedGenericParams inst).is_unused i with
          | true => simp [hun]
          | false =>
            simp only [hun, Bool.false_eq_true, if_false]
            rw [hfd i hi, hPik]
            simp [polyEntry, hun]
        | type =>
          simp only [polyEntry]
          cases hun : (tcx.unusedGenericParams inst).is_unused i with
          | true => simp [hub, hub', hun]
          | false =>
            rw [hfd i hi, hPik]
            simp [hub, hub', hun, polyEntry]
    | true =>
      have hhd : closureOrCoroutineHeaded (tcx.typeOf inst.def_id) = true :=
        ((hasUpvarsB_eq_true_iff tcx inst.def_id args).mp hub).1
      obtain ⟨ts, hts_ne, htu⟩ := tupleFields_of_hasUpvars tcx inst.def_id args hub
      have hlast := hwt _ hhd
      have hPne : tcx.params inst.def_id ≠ [] :=
        List.getLast?_isSome.mp (by rw [hlast]; rfl)
      have hm : (tcx.params inst.def_id).length - 1 < (tcx.params inst.def_id).length := by
        have := List.length_pos.mpr hPne
        omega
      have hPm : (tcx.params inst.def_id)[(tcx.params inst.def_id).length - 1] =
          GenericParamKind.type := by
        rw [List.getLast?_eq_getElem?] at hlast
        obtain ⟨h', he⟩ := List.getElem?_eq_some_iff.mp hlast
        exact he
      have hupv : upvarsTyOpt tcx inst.def_id args = some (tupledUpvarsTy args) :=
        upvarsTyOpt_of_headed tcx inst.def_id args hhd
      have hexp_last : expectTy (args.getD ((tcx.params inst.def_id).length - 1)
          (.tuple [])) = tupledUpvarsTy args := hu_eq.symm
      have hguard_last : (hasUpvarsB tcx inst.def_id args
          && optTyBeq (upvarsTyOpt tcx inst.def_id args)
            (some (expectTy (args.getD ((tcx.params inst.def_id).length - 1)
              (.tuple []))))) = true := by
        rw [hub, hupv, hexp_last]
        simp [optTyBeq, Ty.beq_refl]
      have hentry_last : polyEntry tcx inst args ((tcx.params inst.def_id).length - 1)
          GenericParamKind.type = foldTy tcx (tupledUpvarsTy args) := by
        simp only [polyEntry]
        rw [hguard_last]
        simp
      have hexpGu : expectTy (foldTy tcx (tupledUpvarsTy args)) =
          foldTy tcx (tupledUpvarsTy args) := by
        rw [htu, foldTy_tuple]
        rfl
      have hu' : tupledUpvarsTy (polymorphize tcx inst args) =
          foldTy tcx (tupledUpvarsTy args) := by
        rw [tupledUpvarsTy_eq_getD, hlen', hfd _ hm, hPm, hentry_last, hexpGu]
      have hGu_fields : tupleFields (foldTy tcx (tupledUpvarsTy args)) ≠ [] := by
        rw [htu, foldTy_tuple]
        simp [tupleFields, hts_ne]
      have hub' : hasUpvarsB tcx inst.def_id (polymorphize tcx inst args) = true :=
        (hasUpvarsB_eq_true_iff tcx inst.def_id _).mpr
          ⟨hhd, by rw [hu']; exact hGu_fields⟩
      have hupv' : upvarsTyOpt tcx inst.def_id (polymorphize tcx inst args) =
          some (foldTy tcx (tupledUpvarsTy args)) := by
        rw [upvarsTyOpt_of_headed tcx inst.def_id _ hhd, hu']
      have hltm : (tcx.params inst.def_id).length - 1 < args.length := by
        rw [hlen]
        exact hm
      have humem : args.getD ((tcx.params inst.def_id).length - 1) (.tuple []) ∈ args := by
        rw [List.getD_eq_getElem _ _ hltm]
        exact List.getElem_mem hltm
      have htu_self : args.getD ((tcx.params inst.def_id).length - 1) (.tuple []) =
          tupledUpvarsTy args := by
        rcases expectTy_eq_self_or_junk
            (args.getD ((tcx.params inst.def_id).length - 1) (.tuple [])) with hse | hse
        · rw [← hexp_last, hse]
        · exfalso
          rw [hse] at hexp_last
          rw [htu] at hexp_last
          have hts : ts = [] := by
            have := hexp_last
            injection this
            simp_all
          exact hts_ne hts
      have hwfu : Ty.wf tcx (tupledUpvarsTy args) = true := by
        rw [← htu_self]
        exact hmem _ humem
      have hszu : sizeOf (tupledUpvarsTy args) < n := by
        have hs1 := List.sizeOf_lt_of_mem humem
        rw [htu_self] at hs1
        omega
      have hGG : foldTy tcx (foldTy tcx (tupledUpvarsTy args)) =
          foldTy tcx (tupledUpvarsTy args) :=
        (ih (sizeOf (tupledUpvarsTy args)) hszu).2 tcx _ le_rfl hwt hwfu
      apply List.ext_getElem?
      intro i
      rw [polymorphize_getElem? tcx inst (polymorphize tcx inst args) i,
        polymorphize_getElem? tcx inst args i]
      cases hPi : (tcx.params inst.def_id)[i]? with
      | none => rfl
      | some k =>
        obtain ⟨hi, hPik⟩ := List.getElem?_eq_some_iff.mp hPi
        simp only [Option.map_some']
        congr 1
        cases k with
        | lifetime =>
          simp only [polyEntry]
          rw [hfd i hi, hPik]
          simp only [polyEntry]
        | const =>
          simp only [polyEntry]
          cases hun : (tcx.unusedGenericParams inst).is_unused i with
          | true => simp [hun]
          | false =>
            simp only [hun, Bool.false_eq_true, if_false]
            rw [hfd i hi, hPik]
            simp [polyEntry, hun]
        | type =>
          cases hg : (hasUpvarsB tcx inst.def_id args
              && optTyBeq (upvarsTyOpt tcx inst.def_id args)
                (some (expectTy (args.getD i (.tuple []))))) with
          | true =>
            have hfold1 : polyEntry tcx inst args i GenericParamKind.type =
                foldTy tcx (tupledUpvarsTy args) := by
              simp only [polyEntry]
              rw [hg]
              simp
            rw [hfold1]
            simp only [polyEntry]
            rw [hfd i hi, hPik, hfold1, hupv', hu', hexpGu]
            simp [hub', optTyBeq, Ty.beq_refl, hGG]
          | false =>
            have hfold1 : polyEntry tcx inst args i GenericParamKind.type =
                (if (tcx.unusedGenericParams inst).is_unused i then
                  mkParamFromKind .type i
                 else args.getD i (.tuple [])) := by
              simp only [polyEntry]
              rw [hg]
              simp
            cases hun : (tcx.unusedGenericParams inst).is_unused i with
            | true =>
              have hbe : Ty.beq (foldTy tcx (tupledUpvarsTy args)) (Ty.param i)
                  = false := by
                cases hb : Ty.beq (foldTy tcx (tupledUpvarsTy args)) (Ty.param i) with
                | true =>
                  have hq := (Ty.beq_iff _ _).mp hb
                  rw [htu, foldTy_tuple] at hq
                  exact Ty.noConfusion hq
                | false => rfl
              rw [hfold1]
              simp only [polyEntry]
              rw [hfd i hi, hPik, hfold1, hupv']
              simp [hub', optTyBeq, mkParamFromKind, expectTy, hbe, hun]
            | false =>
              rw [hfold1]
              simp only [hun, Bool.false_eq_true, if_false]
              simp only [polyEntry]
              rw [hfd i hi, hPik, hfold1, hupv', hub']
              simp only [hun, Bool.false_eq_true, if_false, Bool.true_and, optTyBeq]
              cases hb : Ty.beq (foldTy tcx (tupledUpvarsTy args))
                  (expectTy (args.getD i (.tuple []))) with
              | true =>
                have heqb := (Ty.beq_iff _ _).mp hb
                have hai : args.getD i (.tuple []) =
                    foldTy tcx (tupledUpvarsTy args) := by
                  rcases expectTy_eq_self_or_junk (args.getD i (.tuple [])) with hse | hse
                  · rw [hse] at heqb
                    exact heqb.symm
                  · exfalso
                    rw [hse] at heqb
                    rw [htu, foldTy_tuple] at heqb
                    have hmap : ts.map (foldTy tcx) = [] := by
                      injection heqb
                    rw [List.map_eq_nil_iff] at hmap
                    exact hts_ne hmap
                rw [if_pos rfl, hu', hGG, hai]
              | false =>
                simp only [Bool.false_eq_true, if_false]
  · -- idempotence of the type folder
    intro tcx t hsz hwt hwf
    cases t with
    | base k =>
      rw [foldTy_leaf tcx (.base k) trivial]
      exact foldTy_leaf tcx _ trivial
    | param k =>
      rw [foldTy_leaf tcx (.param k) trivial]
      exact foldTy_leaf tcx _ trivial
    | bound k =>
      rw [foldTy_leaf tcx (.bound k) trivial]
      exact foldTy_leaf tcx _ trivial
    | constVal k =>
      rw [foldTy_leaf tcx (.constVal k) trivial]
      exact foldTy_leaf tcx _ trivial
    | constParam k =>
      rw [foldTy_leaf tcx (.constParam k) trivial]
      exact foldTy_leaf tcx _ trivial
    | lifetime =>
      rw [foldTy_leaf tcx .lifetime trivial]
      exact foldTy_leaf tcx _ trivial
    | tuple ts =>
      rw [foldTy_tuple, foldTy_tuple]
      congr 1
      rw [List.map_map]
      apply List.map_congr_left
      intro a ha
      have hsa : sizeOf a < n := by
        have h1 := List.sizeOf_lt_of_mem ha
        have h2 : sizeOf (Ty.tuple ts) = 1 + sizeOf ts := by simp
        omega
      have hwa : Ty.wf tcx a = true := (wf_tuple_iff tcx ts).mp hwf a ha
      have := (ih (sizeOf a) hsa).2 tcx a le_rfl hwt hwa
      simpa [Function.comp] using this
    | adt d as =>
      rw [foldTy_adt, foldTy_adt]
      congr 1
      rw [List.map_map]
      apply List.map_congr_left
      intro a ha
      have hsa : sizeOf a < n := by
        have h1 := List.sizeOf_lt_of_mem ha
        have h2 : sizeOf (Ty.adt d as) = 1 + d + sizeOf as := by simp
        omega
      have hwa : Ty.wf tcx a = true := (wf_adt_iff tcx d as).mp hwf a ha
      have := (ih (sizeOf a) hsa).2 tcx a le_rfl hwt hwa
      simpa [Function.comp] using this
    | closure d a =>
      obtain ⟨hla, hwa⟩ := (wf_closure_iff tcx d a).mp hwf
      have hwargs : wfArgs tcx ((InstanceDef.Item d).def_id) a = true := by
        apply (wfArgs_iff tcx _ a).mpr
        exact ⟨hla, hwa⟩
      have hsa : sizeOf a < n := by
        have h2 : sizeOf (Ty.closure d a) = 1 + d + sizeOf a := by simp
        omega
      have hidem := (ih (sizeOf a) hsa).1 tcx (.Item d) a le_rfl hwt hwargs
      rw [foldTy_closure tcx d a]
      cases hbe : Ty.beqList a (polymorphize tcx (.Item d) a) with
      | true =>
        simp only [hbe, if_true]
        rw [foldTy_closure]
        simp [hbe]
      | false =>
        simp only [hbe, Bool.false_eq_true, if_false]
        rw [foldTy_closure, hidem, Ty.beqList_refl]
        simp
    | coroutine d a =>
      obtain ⟨hla, hwa⟩ := (wf_coroutine_iff tcx d a).mp hwf
      have hwargs : wfArgs tcx ((InstanceDef.Item d).def_id) a = true := by
        apply (wfArgs_iff tcx _ a).mpr
        exact ⟨hla, hwa⟩
      have hsa : sizeOf a < n := by
        have h2 : sizeOf (Ty.coroutine d a) = 1 + d + sizeOf a := by simp
        omega
      have hidem := (ih (sizeOf a) hsa).1 tcx (.Item d) a le_rfl hwt hwargs
      rw [foldTy_coroutine tcx d a]
      cases hbe : Ty.beqList a (polymorphize tcx (.Item d) a) with
      | true =>
        simp only [hbe, if_true]
        rw [foldTy_coroutine]
        simp [hbe]
      | false =>
        simp only [hbe, Bool.false_eq_true, if_false]
        rw [foldTy_coroutine, hidem, Ty.beqList_refl]
        simp

/-- C4: on well-formed argument lists (one argument per generic parameter,
recursively, per the data model) and under the definition-store invariant
on closure/coroutine generics, the specialization fold is a projection —
folding twice equals folding once — and it preserves the length of the
argument list. -/
theorem claim_C4_polymorphize_projection (tcx : Tcx) (inst : InstanceDef)
    (args : List Ty) (hwt : tcx.WellFormedGenerics)
    (hwf : wfArgs tcx inst.def_id args = true) :
    polymorphize tcx inst (polymorphize tcx inst args) = polymorphize tcx inst args ∧
    (polymorphize tcx inst args).length = args.length := by
  constructor
  · exact (polymorphize_and_foldTy_idempotent (sizeOf args)).1 tcx inst args le_rfl
      hwt hwf
  · rw [polymorphize_length]
    exact ((wfArgs_iff tcx inst.def_id args).mp hwf).1.symm

/-- C4 witness: the fold over a definition with no generic parameters and
the empty argument list, in the trivial context. -/
theorem claim_C4_witness :
    tcx0.WellFormedGenerics ∧
    wfArgs tcx0 (InstanceDef.Item 0).def_id [] = true ∧
    polymorphize tcx0 (.Item 0) (polymorphize tcx0 (.Item 0) []) =
      polymorphize tcx0 (.Item 0) [] ∧
    (polymorphize tcx0 (.Item 0) []).length = ([] : List Ty).length := by
  have hwt : tcx0.WellFormedGenerics := by
    intro d h
    simp [tcx0, closureOrCoroutineHeaded] at h
  have hwf : wfArgs tcx0 (InstanceDef.Item 0).def_id [] = true := by
    simp [wfArgs, tcx0, InstanceDef.def_id]
  exact ⟨hwt, hwf, (claim_C4_polymorphize_projection tcx0 (.Item 0) [] hwt hwf).1,
    (claim_C4_polymorphize_projection tcx0 (.Item 0) [] hwt hwf).2⟩

/-- C6 witness: end-to-end scenario C — with sharing disabled, a non-local
instance present in the registry still yields no upstream owner. -/
theorem claim_C6_witness :
    tcxC6.shareGenerics = false ∧
    tcxC6.upstreamMonomorphizationsFor 4 ≠ none ∧
    Instance.upstream_monomorphization { defn := .Item 4, args := [.base 2] } tcxC6 =
      none := by
  refine ⟨rfl, ?_, ?_⟩
  · simp [tcxC6, tcx0]
  · exact (claim_C6_sharing_oracle_rules tcxC6
      { defn := .Item 4, args := [.base 2] }).1 rfl
